import Mathlib

/-!
Verification of the fmjs file-manager module (src/src/main.js) against its
natural-language specification.  The JavaScript code is shallowly embedded:
strings are Lean `String`s (JS `split`, `substring`, `lastIndexOf` are modelled
on the underlying `List Char`), the Google Drive backend's flat entry graph is
an explicit store, and every asynchronous callback chain is rendered as a pure
state-passing function whose outcome type records which callback (if any) was
invoked.
-/

/-! ## JS string primitives

`splitSeg` models JavaScript `path.split('/')` on the character list of a
string: it always returns at least one (possibly empty) segment, one segment
per run of non-`'/'` characters, preserving empty segments. -/

def splitSeg : List Char → List (List Char)
  | [] => [[]]
  | c :: cs =>
    if c = '/' then [] :: splitSeg cs
    else
      match splitSeg cs with
      | [] => [[c]]
      | s :: ss => (c :: s) :: ss

/-- Join a list of segments with `'/'`; the inverse direction of `splitSeg`. -/
def joinSlash : List (List Char) → List Char
  | [] => []
  | [s] => s
  | s :: ss => s ++ '/' :: joinSlash ss

/-- Index of the last `'/'` in a character list, if any; models the
successful case of JS `lastIndexOf('/')` (which returns `-1` when absent). -/
def lastSlashIdx : List Char → Option Nat
  | [] => none
  | c :: cs =>
    match lastSlashIdx cs with
    | some i => some (i + 1)
    | none => if c = '/' then some 0 else none

/-- JS `filePath.substring(0, filePath.lastIndexOf('/'))` on character lists:
`substring` clamps the end index `-1` to `0`, so a slash-free input yields
the empty list. -/
def basedirL (l : List Char) : List Char :=
  match lastSlashIdx l with
  | none => l.take 0
  | some i => l.take i

/-- JS `filePath.substring(filePath.lastIndexOf('/') + 1)` on character
lists. -/
def leafNameL (l : List Char) : List Char :=
  match lastSlashIdx l with
  | none => l.drop 0
  | some i => l.drop (i + 1)

/-- JS `path.split('/')` at the `String` level. -/
def jsSplitSlash (s : String) : List String :=
  (splitSeg s.data).map (fun l => ⟨l⟩)

/-- JS `filePath.substring(0, filePath.lastIndexOf('/'))` at the `String`
level (source line 710 / 350). -/
def jsBasedir (s : String) : String := ⟨basedirL s.data⟩

/-- JS `filePath.substring(filePath.lastIndexOf('/') + 1)` at the `String`
level (source line 674). -/
def jsLeafName (s : String) : String := ⟨leafNameL s.data⟩

namespace fmjs

/-- Embeds `fmjs.path2array` (src lines 871-878): split on `'/'` and drop the
first element exactly when it is `""` or `"."`. -/
def path2array (path : String) : List String :=
  match jsSplitSlash path with
  | [] => []
  | e :: rest => if e = "" ∨ e = "." then rest else e :: rest

/-- Embeds `fmjs.ab2str` (src lines 842-844): one character per byte via
`String.fromCharCode` over a `Uint8Array` view (values reduced mod 256). -/
def ab2str (buf : List Nat) : String :=
  ⟨buf.map (fun n => Char.ofNat (n % 256))⟩

/-- Embeds `fmjs.str2ab` (src lines 853-862): one byte per character via
`charCodeAt`, stored into a `Uint8Array` (which truncates mod 256). -/
def str2ab (str : String) : List Nat :=
  str.data.map (fun c => c.toNat % 256)

end fmjs

/-! ## Browser base64 primitives (`btoa` / `atob`) -/

/-- The base64 alphabet. -/
def b64Table : List Char :=
  "ABCDEFGHIJKLMNOPQRSTUVWXYZabcdefghijklmnopqrstuvwxyz0123456789+/".data

def b64Char (n : Nat) : Char := b64Table.getD n 'A'

def b64Val (c : Char) : Nat := b64Table.indexOf c

/-- Base64-encode a byte list (three bytes to four characters, `'='`
padding). -/
def btoaBytes : List Nat → List Char
  | [] => []
  | [a] => [b64Char (a / 4), b64Char (a % 4 * 16), '=', '=']
  | [a, b] => [b64Char (a / 4), b64Char (a % 4 * 16 + b / 16), b64Char (b % 16 * 4), '=']
  | a :: b :: c :: rest =>
    b64Char (a / 4) :: b64Char (a % 4 * 16 + b / 16) ::
      b64Char (b % 16 * 4 + c / 64) :: b64Char (c % 64) :: btoaBytes rest

/-- Browser `btoa`: base64 encoding of a latin-1 string. -/
def btoa (s : String) : String := ⟨btoaBytes (s.data.map (fun c => c.toNat % 256))⟩

/-- Base64-decode four characters at a time, honouring `'='` padding. -/
def atobBytes : List Char → List Nat
  | a :: b :: c :: d :: rest =>
    let va := b64Val a
    let vb := b64Val b
    let byte1 := va * 4 + vb / 16
    if c = '=' then [byte1]
    else
      let vc := b64Val c
      let byte2 := vb % 16 * 16 + vc / 4
      if d = '=' then [byte1, byte2]
      else byte1 :: byte2 :: (vc % 4 * 64 + b64Val d) :: atobBytes rest
  | _ => []

/-- Browser `atob`: base64 decoding to a latin-1 string. -/
def atob (s : String) : String := ⟨(atobBytes s.data).map Char.ofNat⟩

/-! ## Google Drive backend model

The Drive storage (an external collaborator of `fmjs.GDriveFileManager`) is a
flat graph of entries with parent links, per-entry title and MIME type; a
`children.list` request filters a folder's children by title and folder/
non-folder MIME type, returning matches in a fixed (insertion) order, of which
the code always consumes the first. -/

structure DriveEntry where
  id : String
  parents : List String
  title : String
  mimeType : String
  content : List Nat
  deriving DecidableEq

structure DriveStore where
  entries : List DriveEntry
  nextId : Nat
  deriving DecidableEq

def folderMime : String := "application/vnd.google-apps.folder"

/-- The filter of a `children.list` request with query
`mimeType='application/vnd.google-apps.folder' and title='t'`. -/
def folderQ (folderId t : String) (e : DriveEntry) : Bool :=
  e.parents.contains folderId && e.mimeType == folderMime && e.title == t

/-- The filter of a `children.list` request with query
`mimeType!='application/vnd.google-apps.folder' and title='t'`. -/
def fileQ (folderId t : String) (e : DriveEntry) : Bool :=
  e.parents.contains folderId && e.mimeType != folderMime && e.title == t

/-- `gapi.client.drive.children.list` with the folder-type query (src lines
462-465 and 529-532). -/
def listFolderChildren (st : DriveStore) (folderId t : String) : List DriveEntry :=
  st.entries.filter (folderQ folderId t)

/-- `gapi.client.drive.children.list` with the non-folder query (src lines
524-527). -/
def listFileChildren (st : DriveStore) (folderId t : String) : List DriveEntry :=
  st.entries.filter (fileQ folderId t)

def freshId (n : Nat) : String := "id" ++ toString n

/-- `gapi.client.drive.files.insert` with the given resource fields: the new
entry is appended to the store and returned as the response object. -/
def insertEntry (st : DriveStore) (parentId t mime : String) (content : List Nat) :
    DriveEntry × DriveStore :=
  let e : DriveEntry := ⟨freshId st.nextId, [parentId], t, mime, content⟩
  (e, ⟨st.entries ++ [e], st.nextId + 1⟩)

/-- The recursive `createFolder` continuation inside
`GDriveFileManager.createPath` (src lines 460-494): list the current folder's
children of folder type with the next segment as title; if none, insert a new
folder there; recurse on the remaining segments from the found or created
folder. -/
def createFolder (rootId f : String) (rest : List String) (st : DriveStore) :
    DriveEntry × DriveStore :=
  match listFolderChildren st rootId f with
  | [] =>
    let p := insertEntry st rootId f folderMime []
    match rest with
    | [] => p
    | g :: gs => createFolder p.1.id g gs p.2
  | e :: _ =>
    match rest with
    | [] => (e, st)
    | g :: gs => createFolder e.id g gs st

/-- The `GDriveFileManager` instance state: the session flags set during the
authorization handshake (src lines 376-390; note the constructor initialises
the misspelled `autorized` field, so `this.authorized` starts out undefined,
i.e. falsy), the cached user info, and the backing Drive store. -/
structure GDriveState where
  clientOAuthAPILoaded : Bool
  authorized : Bool
  driveAPILoaded : Bool
  userInfo : Option (String × String)
  store : DriveStore
  deriving DecidableEq

/-- Outcome of an operation whose callback takes a response object or null:
either the callback fired (with `some` response or `none` for null), or the
method hit a `console.error` guard and never invoked the callback. -/
inductive CbOutcome (α : Type)
  | callback (r : Option α)
  | noCallback
  deriving DecidableEq

/-- Embeds `GDriveFileManager.createPath` (src lines 458-507): requires the
drive API loaded (else `console.error`, no callback); an empty segment list
short-circuits to `callback(null)`; otherwise walks/creates the folder chain
from the synthetic root `'root'`. -/
def createPath (st : GDriveState) (path : String) : CbOutcome DriveEntry × GDriveState :=
  if st.driveAPILoaded then
    match fmjs.path2array path with
    | [] => (.callback none, st)
    | f :: fs =>
      let p := createFolder "root" f fs st.store
      (.callback (some p.1), { st with store := p.2 })
  else
    (.noCallback, st)

/-- The recursive `findEntry` continuation inside `GDriveFileManager.isFile`
(src lines 518-565): intermediate segments are matched with the folder-type
filter, the final segment with the non-folder filter; the first match is
followed; the final `files.get` returns the found entry's resource. -/
def findEntry (st : DriveStore) (rootId e0 : String) (rest : List String) :
    Option DriveEntry :=
  match rest with
  | [] => (listFileChildren st rootId e0).head?
  | g :: gs =>
    match (listFolderChildren st rootId e0).head? with
    | some d => findEntry st d.id g gs
    | none => none

/-- Embeds `GDriveFileManager.isFile` (src lines 516-578). -/
def gdIsFile (st : GDriveState) (filePath : String) : CbOutcome DriveEntry × GDriveState :=
  if st.driveAPILoaded then
    match fmjs.path2array filePath with
    | [] => (.callback none, st)
    | f :: fs => (.callback (findEntry st.store "root" f fs), st)
  else
    (.noCallback, st)

/-- The property names actually assigned on `fmjs.GDriveFileManager.prototype`
(src lines 125-133, 395-396, 404, 436, 458, 516, 587, 629, 664, 722, 746).
JavaScript property lookup is case sensitive, so `this.isfile` is not among
them. -/
def gdrivePrototypeMethods : List String :=
  ["requestFileSystem", "loadGDriveApi", "createPath", "isFile", "readFile",
   "readFileByID", "writeFile", "shareFile", "getUserInfo"]

/-- Outcome of `readFile`: the data callback fired, or a `console.error` guard
swallowed the call, or a JS `TypeError` was thrown because a method name did
not resolve on the receiver. -/
inductive ReadOutcome
  | callback (d : Option (List Nat))
  | noCallback
  | methodMissing (m : String)
  deriving DecidableEq

/-- The body `GDriveFileManager.readFile` would run if the existence check it
names resolved: `isFile`, then an authorized fetch of the record's
`downloadUrl` whose response text is the base64 transport encoding of the
stored bytes (spec section 4.4), decoded by `str2ab(atob(...))` (src lines
591-614). -/
def gdReadFileResolved (st : GDriveState) (filePath : String) :
    ReadOutcome × GDriveState :=
  match gdIsFile st filePath with
  | (.callback (some fileResp), st1) =>
    let responseText := btoa (fmjs.ab2str fileResp.content)
    (.callback (some (fmjs.str2ab (atob responseText))), st1)
  | (.callback none, st1) => (.callback none, st1)
  | (.noCallback, st1) => (.noCallback, st1)

/-- Embeds `GDriveFileManager.readFile` (src lines 587-618).  Its first step
is the dynamic call `this.isfile(filePath, ...)` (src line 589); the prototype
defines `isFile` but no `isfile`, so the lookup yields `undefined` and the
call throws a `TypeError` before any resolution work happens. -/
def gdReadFile (st : GDriveState) (filePath : String) : ReadOutcome × GDriveState :=
  if gdrivePrototypeMethods.contains "isfile" then
    gdReadFileResolved st filePath
  else
    (.methodMissing "isfile", st)

/-! ## readFileByID, writeFile, session bootstrap, getUserInfo -/

/-- Observable Drive requests issued by `readFileByID`, in order. -/
inductive DriveEvent
  | copyReq (fileId newTitle : String)
  | deleteReq (fileId : String)
  deriving DecidableEq

/-- Remove an entry by id (`gapi.client.drive.files.delete`, a permanent
non-trash delete). -/
def deleteById (st : DriveStore) (fileId : String) : DriveStore :=
  ⟨st.entries.filter (fun e => e.id != fileId), st.nextId⟩

/-- Embeds `GDriveFileManager.readFileByID` (src lines 629-655): copy the
target entry to `'tempGDriveFile.tmp'` (the external copy operation duplicates
content and MIME type; its placement is modelled under the synthetic root),
read the duplicate via `this.readFile`, and in the read callback permanently
delete the duplicate and hand the data on.  The returned event list records
which Drive mutation requests were actually issued. -/
def gdReadFileByID (st : GDriveState) (fileID : String) :
    ReadOutcome × GDriveState × List DriveEvent :=
  if st.driveAPILoaded then
    match st.store.entries.find? (fun e => e.id == fileID) with
    | some src =>
      let p := insertEntry st.store "root" "tempGDriveFile.tmp" src.mimeType src.content
      let st1 := { st with store := p.2 }
      match gdReadFile st1 "tempGDriveFile.tmp" with
      | (.callback d, st2) =>
        (.callback d, { st2 with store := deleteById st2.store p.1.id },
         [.copyReq fileID "tempGDriveFile.tmp", .deleteReq p.1.id])
      | (.noCallback, st2) => (.noCallback, st2, [.copyReq fileID "tempGDriveFile.tmp"])
      | (.methodMissing m, st2) =>
        (.methodMissing m, st2, [.copyReq fileID "tempGDriveFile.tmp"])
    | none =>
      match gdReadFile st "tempGDriveFile.tmp" with
      | (.callback d, st2) => (.callback d, st2, [.copyReq fileID "tempGDriveFile.tmp"])
      | (.noCallback, st2) => (.noCallback, st2, [.copyReq fileID "tempGDriveFile.tmp"])
      | (.methodMissing m, st2) =>
        (.methodMissing m, st2, [.copyReq fileID "tempGDriveFile.tmp"])
  else
    (.noCallback, st, [])

/-- The fixed multipart boundary (src line 669). -/
def boundaryConst : String := "-------314159265358979323846"

/-- `JSON.stringify({'title': name, 'mimeType': contentType, 'parents':
[{'id': id}]})` for strings needing no JSON escaping (src lines 675-679). -/
def metadataJson (title mime parentId : String) : String :=
  "\x7b\"title\":\"" ++ title ++ "\",\"mimeType\":\"" ++ mime ++
    "\",\"parents\":[\x7b\"id\":\"" ++ parentId ++ "\"\x7d]\x7d"

/-- The multipart request body exactly as assembled by
`GDriveFileManager.writeFile` (src lines 669-691), with the source's literal
pieces and left-to-right concatenation order. -/
def multipartRequestBody (metadata contentType base64Data : String) : String :=
  let delimiter := "\r\n--" ++ boundaryConst ++ "\r\n"
  let close_delim := "\r\n--" ++ boundaryConst ++ "--"
  delimiter ++ "Content-Type: application/json\r\n\r\n" ++ metadata ++ delimiter ++
    "Content-Type: " ++ contentType ++ "\r\n" ++ "Content-Transfer-Encoding: base64\r\n" ++
    "\r\n" ++ base64Data ++ close_delim

structure UploadRequest where
  reqPath : String
  reqMethod : String
  uploadType : String
  contentTypeHeader : String
  body : String
  deriving DecidableEq

/-- The `gapi.client.request` argument built by `writeFile` (src lines
693-700) once the base directory response is available.  `fileData` is an
`ArrayBuffer`, so `fileData.type` and `fileData.name` are undefined and the
fallbacks `'application/octet-stream'` and the path's leaf name apply. -/
def uploadRequestFor (baseDirId filePath : String) (fileData : List Nat) : UploadRequest :=
  let contentType := "application/octet-stream"
  let name := jsLeafName filePath
  let metadata := metadataJson name contentType baseDirId
  let base64Data := btoa (fmjs.ab2str fileData)
  { reqPath := "/upload/drive/v2/files"
    reqMethod := "POST"
    uploadType := "multipart"
    contentTypeHeader := "multipart/mixed; boundary=\"" ++ boundaryConst ++ "\""
    body := multipartRequestBody metadata contentType base64Data }

/-- Outcome of `GDriveFileManager.writeFile`: either the upload request was
issued and its callback fired (the external transport's failure response is
modelled as null, per the result-or-null convention of spec section 7), or
`createPath` invoked the continuation with null and the continuation threw a
`TypeError` dereferencing `baseDirResp.id`, or `createPath`'s API guard
swallowed the call. -/
inductive WriteOutcome
  | callback (r : Option DriveEntry) (req : UploadRequest)
  | crashNullBase
  | noCallback
  deriving DecidableEq

/-- Embeds `GDriveFileManager.writeFile` (src lines 664-712): compute the
parent path by string surgery, run `createPath` on it, and in its callback
assemble and issue the multipart upload.  `uploadOk` is the external
transport's verdict; on success the server stores the decoded entry under the
base directory. -/
def gdWriteFile (st : GDriveState) (filePath : String) (fileData : List Nat)
    (uploadOk : Bool) : WriteOutcome × GDriveState :=
  let basedir := jsBasedir filePath
  match createPath st basedir with
  | (.noCallback, st1) => (.noCallback, st1)
  | (.callback none, st1) => (.crashNullBase, st1)
  | (.callback (some baseDirResp), st1) =>
    let req := uploadRequestFor baseDirResp.id filePath fileData
    if uploadOk then
      let p := insertEntry st1.store baseDirResp.id (jsLeafName filePath)
        "application/octet-stream" fileData
      (.callback (some p.1) req, { st1 with store := p.2 })
    else
      (.callback none req, st1)

/-- Whether the session callback of `requestFileSystem` / `loadGDriveApi` was
invoked, and with which boolean. -/
inductive SessionCb
  | invoked (granted : Bool)
  | notInvoked
  deriving DecidableEq

/-- Embeds `GDriveFileManager.loadGDriveApi` (src lines 436-449): when
authorized and the drive API is not yet loaded, load it and call
`callback(true)`; when it is already loaded the `if` has no else branch and no
callback is invoked; when unauthorized, `console.error` and no callback. -/
def loadGDriveApi (st : GDriveState) : SessionCb × GDriveState :=
  if st.authorized then
    if !st.driveAPILoaded then
      (.invoked true, { st with driveAPILoaded := true })
    else
      (.notInvoked, st)
  else
    (.notInvoked, st)

/-- The inner `requestFS` of `requestFileSystem` (src lines 407-421):
`gapi.auth.authorize` is consulted only when not yet authorized; `env`
answers whether the (possibly immediate/silent) authorization attempt
produced a grant. -/
def requestFS (st : GDriveState) (immediate : Bool) (env : Bool → Bool) :
    SessionCb × GDriveState :=
  if !st.authorized then
    if env immediate then
      loadGDriveApi { st with authorized := true }
    else
      (.invoked false, st)
  else
    loadGDriveApi st

/-- Embeds `GDriveFileManager.requestFileSystem` (src lines 404-429).  The
source never assigns `clientOAuthAPILoaded := true`, so both branches of its
guard end up running `requestFS` (via `gapi.load('auth:client', ...)` in the
else branch). -/
def requestFileSystem (st : GDriveState) (immediate : Bool) (env : Bool → Bool) :
    SessionCb × GDriveState :=
  if st.clientOAuthAPILoaded then
    requestFS st immediate env
  else
    requestFS st immediate env

/-- Outcome of `getUserInfo`: the callback fired with the user record after
the given number of remote `about.get` requests, or the method threw a
`TypeError` because `gapi.client.drive` is undefined while the drive API has
not been loaded. -/
inductive UserInfoOutcome
  | callback (nameEmail : String × String) (remoteCalls : Nat)
  | noCallback
  | crashed
  deriving DecidableEq

/-- Embeds `GDriveFileManager.getUserInfo` (src lines 746-760): cached info is
returned directly; otherwise `gapi.client.drive.about.get()` is issued — with
no readiness guard, so before `gapi.client.load('drive', ...)` has run the
property chain is undefined and the call throws.  `about` is the external
response, supplying `resp.name` and `resp.user.emailAddress`. -/
def getUserInfo (st : GDriveState) (about : String × String) :
    UserInfoOutcome × GDriveState :=
  match st.userInfo with
  | some u => (.callback u 0, st)
  | none =>
    if st.driveAPILoaded then
      (.callback about 1, { st with userInfo := some about })
    else
      (.crashed, st)

/-! ## Derived definitions used by the theorems below -/

/-- `path2array` on the character-list level. -/
def path2arrayL (l : List Char) : List (List Char) :=
  match splitSeg l with
  | [] => []
  | e :: rest => if e = [] ∨ e = ['.'] then rest else e :: rest

/-- The multipart body as the specification words it (spec section 6):
`\r\n--{boundary}\r\n` + `Content-Type: application/json\r\n\r\n` +
JSON(metadata) + `\r\n--{boundary}\r\n` + `Content-Type: {mime}\r\n` +
`Content-Transfer-Encoding: base64\r\n\r\n` + base64(bytes) +
`\r\n--{boundary}--`. -/
def specMultipartBody (boundary metadata mime base64Data : String) : String :=
  "\r\n--" ++ boundary ++ "\r\n" ++
    "Content-Type: application/json\r\n\r\n" ++
    metadata ++
    "\r\n--" ++ boundary ++ "\r\n" ++
    "Content-Type: " ++ mime ++ "\r\n" ++
    "Content-Transfer-Encoding: base64\r\n\r\n" ++
    base64Data ++
    "\r\n--" ++ boundary ++ "--"

/-- Concrete states used as witnesses below. -/
def readySessionState : GDriveState :=
  { clientOAuthAPILoaded := true, authorized := true, driveAPILoaded := true,
    userInfo := none, store := ⟨[], 0⟩ }

def emptyDriveState : GDriveState :=
  { clientOAuthAPILoaded := true, authorized := true, driveAPILoaded := true,
    userInfo := none, store := ⟨[], 0⟩ }

def notReadyState : GDriveState :=
  { clientOAuthAPILoaded := false, authorized := false, driveAPILoaded := false,
    userInfo := none, store := ⟨[], 0⟩ }

def storedFileState : GDriveState :=
  { clientOAuthAPILoaded := true, authorized := true, driveAPILoaded := true,
    userInfo := none,
    store := ⟨[⟨"f1", ["root"], "doc.txt", "text/plain", [7, 8]⟩], 5⟩ }

/-! ## Lemmas about `createFolder`

The key structural facts: a `createFolder` run only appends entries to the
store, and re-running it on any store extending its own result finds every
level again (first match) and inserts nothing. -/

theorem insertEntry_fst (st : DriveStore) (parentId t mime : String) (content : List Nat) :
    (insertEntry st parentId t mime content).1 =
      ⟨freshId st.nextId, [parentId], t, mime, content⟩ := rfl

theorem insertEntry_snd (st : DriveStore) (parentId t mime : String) (content : List Nat) :
    (insertEntry st parentId t mime content).2 =
      ⟨st.entries ++ [⟨freshId st.nextId, [parentId], t, mime, content⟩], st.nextId + 1⟩ := rfl

theorem folderQ_inserted (rootId f : String) (n : Nat) (content : List Nat) :
    folderQ rootId f ⟨freshId n, [rootId], f, folderMime, content⟩ = true := by
  simp [folderQ]

theorem listFolderChildren_mk (entries : List DriveEntry) (n : Nat) (rootId f : String) :
    listFolderChildren ⟨entries, n⟩ rootId f = entries.filter (folderQ rootId f) := rfl

theorem createFolder_empty_nil (rootId f : String) (st : DriveStore)
    (h : listFolderChildren st rootId f = []) :
    createFolder rootId f [] st = insertEntry st rootId f folderMime [] := by
  conv_lhs => rw [createFolder.eq_def]
  rw [h]

theorem createFolder_empty_cons (rootId f g : String) (gs : List String) (st : DriveStore)
    (h : listFolderChildren st rootId f = []) :
    createFolder rootId f (g :: gs) st =
      createFolder (insertEntry st rootId f folderMime []).1.id g gs
        (insertEntry st rootId f folderMime []).2 := by
  conv_lhs => rw [createFolder.eq_def]
  rw [h]

theorem createFolder_found_nil (rootId f : String) (st : DriveStore) (e : DriveEntry)
    (es : List DriveEntry) (h : listFolderChildren st rootId f = e :: es) :
    createFolder rootId f [] st = (e, st) := by
  conv_lhs => rw [createFolder.eq_def]
  rw [h]

theorem createFolder_found_cons (rootId f g : String) (gs : List String) (st : DriveStore)
    (e : DriveEntry) (es : List DriveEntry) (h : listFolderChildren st rootId f = e :: es) :
    createFolder rootId f (g :: gs) st = createFolder e.id g gs st := by
  conv_lhs => rw [createFolder.eq_def]
  rw [h]

/-- A `createFolder` run only appends to the entry list. -/
theorem createFolder_entries_extend (rest : List String) :
    ∀ (rootId f : String) (st : DriveStore),
      ∃ ex, (createFolder rootId f rest st).2.entries = st.entries ++ ex := by
  induction rest with
  | nil =>
    intro rootId f st
    cases h : listFolderChildren st rootId f with
    | nil =>
      exact ⟨[(insertEntry st rootId f folderMime []).1],
        by rw [createFolder_empty_nil rootId f st h, insertEntry_snd]; rfl⟩
    | cons e es =>
      exact ⟨[], by rw [createFolder_found_nil rootId f st e es h]; simp⟩
  | cons g gs ih =>
    intro rootId f st
    cases h : listFolderChildren st rootId f with
    | nil =>
      obtain ⟨ex, hex⟩ :=
        ih (insertEntry st rootId f folderMime []).1.id g (insertEntry st rootId f folderMime []).2
      refine ⟨(insertEntry st rootId f folderMime []).1 :: ex, ?_⟩
      rw [createFolder_empty_cons rootId f g gs st h, hex, insertEntry_snd]
      simp [insertEntry_fst]
    | cons e es =>
      obtain ⟨ex, hex⟩ := ih e.id g st
      exact ⟨ex, by rw [createFolder_found_cons rootId f g gs st e es h]; exact hex⟩

/-- Re-running `createFolder` on any store whose entries extend its own
result finds the same terminal folder and leaves the store untouched. -/
theorem createFolder_stable (rest : List String) :
    ∀ (rootId f : String) (st : DriveStore) (ex : List DriveEntry) (st2 : DriveStore),
      st2.entries = (createFolder rootId f rest st).2.entries ++ ex →
      createFolder rootId f rest st2 = ((createFolder rootId f rest st).1, st2) := by
  induction rest with
  | nil =>
    intro rootId f st ex st2 h2
    cases h : listFolderChildren st rootId f with
    | nil =>
      rw [createFolder_empty_nil rootId f st h] at h2 ⊢
      rw [insertEntry_snd] at h2
      have hq : listFolderChildren st2 rootId f =
          (insertEntry st rootId f folderMime []).1 :: List.filter (folderQ rootId f) ex := by
        have hst : listFolderChildren st rootId f = st.entries.filter (folderQ rootId f) := rfl
        rw [hst] at h
        show st2.entries.filter (folderQ rootId f) = _
        rw [h2]
        simp [List.filter_append, h, insertEntry_fst, folderQ_inserted]
      rw [createFolder_found_nil rootId f st2 _ _ hq, insertEntry_fst]
    | cons e es =>
      rw [createFolder_found_nil rootId f st e es h] at h2 ⊢
      have hq : listFolderChildren st2 rootId f =
          e :: (es ++ List.filter (folderQ rootId f) ex) := by
        have hst : listFolderChildren st rootId f = st.entries.filter (folderQ rootId f) := rfl
        rw [hst] at h
        show st2.entries.filter (folderQ rootId f) = _
        rw [h2]
        simp [List.filter_append, h]
      rw [createFolder_found_nil rootId f st2 _ _ hq]
  | cons g gs ih =>
    intro rootId f st ex st2 h2
    cases h : listFolderChildren st rootId f with
    | nil =>
      rw [createFolder_empty_cons rootId f g gs st h] at h2 ⊢
      obtain ⟨ex1, hex1⟩ :=
        createFolder_entries_extend gs (insertEntry st rootId f folderMime []).1.id g
          (insertEntry st rootId f folderMime []).2
      have hq : ∃ tl, listFolderChildren st2 rootId f =
          (insertEntry st rootId f folderMime []).1 :: tl := by
        have hst : listFolderChildren st rootId f = st.entries.filter (folderQ rootId f) := rfl
        rw [hst] at h
        refine ⟨List.filter (folderQ rootId f) (ex1 ++ ex), ?_⟩
        show st2.entries.filter (folderQ rootId f) = _
        rw [h2, hex1, insertEntry_snd]
        simp [List.filter_append, h, insertEntry_fst, folderQ_inserted]
      obtain ⟨tl, hq⟩ := hq
      rw [createFolder_found_cons rootId f g gs st2 _ tl hq]
      exact ih _ g (insertEntry st rootId f folderMime []).2 ex st2 h2
    | cons e es =>
      rw [createFolder_found_cons rootId f g gs st e es h] at h2 ⊢
      obtain ⟨ex1, hex1⟩ := createFolder_entries_extend gs e.id g st
      have hq : listFolderChildren st2 rootId f =
          e :: (es ++ List.filter (folderQ rootId f) (ex1 ++ ex)) := by
        have hst : listFolderChildren st rootId f = st.entries.filter (folderQ rootId f) := rfl
        rw [hst] at h
        show st2.entries.filter (folderQ rootId f) = _
        rw [h2, hex1]
        simp [List.filter_append, h]
      rw [createFolder_found_cons rootId f g gs st2 _ _ hq]
      exact ih e.id g st ex st2 h2

/-- Idempotence of `createFolder`: run it twice from the same arguments and
the second run returns the first run's folder and state unchanged. -/
theorem createFolder_idem (rootId f : String) (rest : List String) (st : DriveStore) :
    createFolder rootId f rest (createFolder rootId f rest st).2 =
      createFolder rootId f rest st := by
  have h := createFolder_stable rest rootId f st [] (createFolder rootId f rest st).2 (by simp)
  rw [h]

/-! ## Lemmas about `splitSeg`, `lastSlashIdx` and `path2array` -/

theorem splitSeg_ne_nil : ∀ l : List Char, splitSeg l ≠ []
  | [] => by simp [splitSeg]
  | c :: cs => by
    simp only [splitSeg]
    split
    · simp
    · split
      · simp
      · simp

/-- Joining the segments with `'/'` restores the input: `splitSeg` really is
splitting on `'/'`. -/
theorem joinSlash_splitSeg : ∀ l : List Char, joinSlash (splitSeg l) = l
  | [] => rfl
  | c :: cs => by
    have ih := joinSlash_splitSeg cs
    by_cases hc : c = '/'
    · subst hc
      obtain ⟨s, ss, hss⟩ := List.exists_cons_of_ne_nil (splitSeg_ne_nil cs)
      simp only [splitSeg, if_pos rfl]
      rw [hss] at ih ⊢
      simpa [joinSlash] using ih
    · obtain ⟨s, ss, hss⟩ := List.exists_cons_of_ne_nil (splitSeg_ne_nil cs)
      simp only [splitSeg, if_neg hc, hss]
      rw [hss] at ih
      cases ss with
      | nil => simp only [joinSlash] at ih ⊢; rw [ih]
      | cons y ys => simp only [joinSlash] at ih ⊢; rw [List.cons_append, ih]

/-- No segment produced by `splitSeg` contains a `'/'`. -/
theorem splitSeg_mem_no_slash : ∀ (l : List Char), ∀ s ∈ splitSeg l, '/' ∉ s
  | [] => by simp [splitSeg]
  | c :: cs => by
    intro s hs
    have ih := splitSeg_mem_no_slash cs
    by_cases hc : c = '/'
    · subst hc
      simp only [splitSeg, if_pos rfl] at hs
      rcases List.mem_cons.mp hs with h | h
      · subst h; simp
      · exact ih s h
    · obtain ⟨t, ts, hts⟩ := List.exists_cons_of_ne_nil (splitSeg_ne_nil cs)
      simp only [splitSeg, if_neg hc, hts] at hs
      rcases List.mem_cons.mp hs with h | h
      · subst h
        intro hm
        rcases List.mem_cons.mp hm with h2 | h2
        · exact hc h2.symm
        · exact ih t (by rw [hts]; exact List.mem_cons_self t ts) h2
      · exact ih s (by rw [hts]; exact List.mem_cons_of_mem t h)

/-- A slash-free list is a single segment. -/
theorem splitSeg_of_no_slash : ∀ l : List Char, lastSlashIdx l = none → splitSeg l = [l]
  | [], _ => rfl
  | c :: cs, h => by
    simp only [lastSlashIdx] at h
    cases hcs : lastSlashIdx cs with
    | some i => rw [hcs] at h; simp at h
    | none =>
      rw [hcs] at h
      have hc : c ≠ '/' := by
        intro hc; rw [if_pos hc] at h; simp at h
      have ih := splitSeg_of_no_slash cs hcs
      simp [splitSeg, if_neg hc, ih]

/-- `splitSeg` distributes over a separator occurrence. -/
theorem splitSeg_append : ∀ (x y : List Char),
    splitSeg (x ++ '/' :: y) = splitSeg x ++ splitSeg y
  | [], y => by simp [splitSeg]
  | c :: cs, y => by
    have ih := splitSeg_append cs y
    by_cases hc : c = '/'
    · subst hc
      simp [splitSeg, ih]
    · obtain ⟨s, ss, hss⟩ := List.exists_cons_of_ne_nil (splitSeg_ne_nil cs)
      rw [hss] at ih
      simp only [List.cons_append, splitSeg, if_neg hc, ih, hss]
      rw [show splitSeg (cs.append ('/' :: y)) = s :: (ss ++ splitSeg y) from ih]

theorem lastSlashIdx_append (r : List Char) (hr : lastSlashIdx r = none) :
    ∀ q : List Char, lastSlashIdx (q ++ '/' :: r) = some q.length
  | [] => by simp [lastSlashIdx, hr]
  | c :: cs => by
    have ih := lastSlashIdx_append r hr cs
    simp [lastSlashIdx, ih]

/-- A list with a last slash at index `i` decomposes as `q ++ '/' :: r` with
`q` of length `i` and `r` slash-free. -/
theorem lastSlashIdx_decomp : ∀ (l : List Char) (i : Nat), lastSlashIdx l = some i →
    ∃ q r, l = q ++ '/' :: r ∧ q.length = i ∧ lastSlashIdx r = none
  | [], i, h => by simp [lastSlashIdx] at h
  | c :: cs, i, h => by
    simp only [lastSlashIdx] at h
    cases hcs : lastSlashIdx cs with
    | some j =>
      rw [hcs] at h
      obtain ⟨q, r, hqr, hlen, hr⟩ := lastSlashIdx_decomp cs j hcs
      refine ⟨c :: q, r, by rw [hqr]; rfl, ?_, hr⟩
      simp only [Option.some.injEq] at h
      simp [hlen, ← h]
    | none =>
      rw [hcs] at h
      by_cases hc : c = '/'
      · rw [if_pos hc] at h
        simp only [Option.some.injEq] at h
        exact ⟨[], cs, by simp [hc], by simp [← h], hcs⟩
      · rw [if_neg hc] at h
        simp at h

theorem path2array_data (s : String) :
    fmjs.path2array s = (path2arrayL s.data).map (fun l => ⟨l⟩) := by
  unfold fmjs.path2array path2arrayL jsSplitSlash
  cases k : splitSeg s.data with
  | nil => simp
  | cons e rest =>
    simp only [List.map_cons]
    by_cases he : e = [] ∨ e = ['.']
    · rw [if_pos he, if_pos]
      rcases he with he | he <;> subst he <;> simp [String.ext_iff]
    · rw [if_neg he, if_neg, List.map_cons]
      intro hcon
      apply he
      rcases hcon with h | h
      · exact Or.inl (by simpa [String.ext_iff] using h)
      · exact Or.inr (by simpa [String.ext_iff] using h)

theorem path2arrayL_nil : path2arrayL [] = [] := rfl

/-- The crucial fact behind root-level writes: if the normalized segment
sequence of `l` has exactly one element, then the string-surgery parent
`basedirL l` has an empty segment sequence. -/
theorem path2arrayL_basedir_of_len1 (l : List Char)
    (h : (path2arrayL l).length = 1) : path2arrayL (basedirL l) = [] := by
  cases hidx : lastSlashIdx l with
  | none =>
    simp [basedirL, hidx, path2arrayL_nil]
  | some i =>
    obtain ⟨q, r, hqr, hlen, hr⟩ := lastSlashIdx_decomp l i hidx
    have hbase : basedirL l = q := by
      simp only [basedirL, hidx]
      rw [hqr, ← hlen]
      exact List.take_left q ('/' :: r)
    rw [hbase]
    have hsplit : splitSeg l = splitSeg q ++ [r] := by
      rw [hqr, splitSeg_append, splitSeg_of_no_slash r hr]
    obtain ⟨h0, t, ht⟩ := List.exists_cons_of_ne_nil (splitSeg_ne_nil q)
    rw [ht] at hsplit
    unfold path2arrayL at h
    rw [hsplit] at h
    simp only [List.cons_append] at h
    by_cases h0c : h0 = [] ∨ h0 = ['.']
    · rw [if_pos h0c] at h
      have ht0 : t = [] := by
        rw [List.length_append] at h
        simp at h
        exact h
      unfold path2arrayL
      rw [ht, ht0]
      show (if h0 = [] ∨ h0 = ['.'] then ([] : List (List Char)) else [h0]) = []
      rw [if_pos h0c]
    · rw [if_neg h0c] at h
      simp [List.length_append] at h

/-! ## The multipart wire format -/

theorem str_append_assoc (a b c : String) : a ++ b ++ c = a ++ (b ++ c) := by
  obtain ⟨la⟩ := a
  obtain ⟨lb⟩ := b
  obtain ⟨lc⟩ := c
  exact congrArg String.mk (List.append_assoc la lb lc)

/-- The body assembled by the source equals the specification's formula. -/
theorem multipartRequestBody_eq_spec (metadata mime b64 : String) :
    multipartRequestBody metadata mime b64 = specMultipartBody boundaryConst metadata mime b64 := by
  unfold multipartRequestBody specMultipartBody
  have hm : ∀ x : String,
      ("Content-Transfer-Encoding: base64\r\n" : String) ++ ("\r\n" ++ x) =
        "Content-Transfer-Encoding: base64\r\n\r\n" ++ x := by
    intro x
    rw [← str_append_assoc]
    rfl
  simp only [str_append_assoc, hm]

/-! ## Helper facts shared by the claim theorems -/

theorem gdstate_store_eta (s : GDriveState) : { s with store := s.store } = s := rfl

theorem gdReadFile_eq (st : GDriveState) (p : String) :
    gdReadFile st p = (ReadOutcome.methodMissing "isfile", st) := rfl

theorem createPath_cons (st : GDriveState) (p f : String) (fs : List String)
    (hapi : st.driveAPILoaded = true) (hp : fmjs.path2array p = f :: fs) :
    createPath st p = (CbOutcome.callback (some (createFolder "root" f fs st.store).1),
      { st with store := (createFolder "root" f fs st.store).2 }) := by
  unfold createPath
  rw [hp]
  simp [hapi]

set_option maxRecDepth 2048 in
theorem char_ofNat_toNat_lt : ∀ x : Nat, x < 256 → (Char.ofNat x).toNat = x := by
  decide

theorem map_mk_data (l : List (List Char)) :
    (l.map (fun x => (⟨x⟩ : String))).map String.data = l := by
  rw [List.map_map]
  show l.map (fun x => x) = l
  exact List.map_id' l

/-- Claim C8: for byte sequences with values 0-255, `str2ab` after `ab2str`
is the identity. -/
theorem c8_str2ab_ab2str_roundtrip (b : List Nat) (h : ∀ x ∈ b, x < 256) :
    fmjs.str2ab (fmjs.ab2str b) = b := by
  unfold fmjs.str2ab fmjs.ab2str
  show (b.map (fun n => Char.ofNat (n % 256))).map (fun c => c.toNat % 256) = b
  rw [List.map_map]
  have : ∀ x ∈ b, ((fun c : Char => c.toNat % 256) ∘ fun n : Nat => Char.ofNat (n % 256)) x = id x := by
    intro x hx
    have hlt : x < 256 := h x hx
    have hmod : x % 256 = x := Nat.mod_eq_of_lt hlt
    simp only [Function.comp_apply, id_eq, hmod]
    rw [char_ofNat_toNat_lt x hlt]
    exact hmod
  rw [List.map_congr_left this]
  exact List.map_id b

theorem c8_witness :
    (∀ x ∈ [0, 65, 129, 255], x < 256) ∧
      fmjs.str2ab (fmjs.ab2str [0, 65, 129, 255]) = [0, 65, 129, 255] :=
  ⟨by decide, c8_str2ab_ab2str_roundtrip [0, 65, 129, 255] (by decide)⟩

/-- Claim C1 (refuted by the code): with the OAuth client library loaded, the
app authorized and the drive API loaded, `requestFileSystem` runs no
authorization handshake but also invokes no callback at all — the
`if (!this.driveAPILoaded)` in `loadGDriveApi` has no else branch — instead
of the claimed `callback(true)`. -/
theorem c1_requestFileSystem_ready_no_callback (st : GDriveState)
    (hauth : st.authorized = true) (hapi : st.driveAPILoaded = true) :
    ∀ (immediate : Bool) (env : Bool → Bool),
      requestFileSystem st immediate env = (SessionCb.notInvoked, st) := by
  intro immediate env
  unfold requestFileSystem requestFS loadGDriveApi
  simp [hauth, hapi]

theorem c1_witness :
    readySessionState.authorized = true ∧ readySessionState.driveAPILoaded = true ∧
      requestFileSystem readySessionState true (fun _ => true) =
        (SessionCb.notInvoked, readySessionState) :=
  ⟨rfl, rfl, c1_requestFileSystem_ready_no_callback readySessionState rfl rfl true (fun _ => true)⟩

/-- Claim C5 (refuted by the code): `readFile` invokes `this.isfile`, a
property never defined on the prototype (`isFile` is), so every call throws a
`TypeError` before resolving the path or fetching anything. -/
theorem c5_readFile_throws_on_isfile :
    (∀ (st : GDriveState) (p : String),
      gdReadFile st p = (ReadOutcome.methodMissing "isfile", st)) ∧
    gdrivePrototypeMethods.contains "isFile" = true ∧
    gdrivePrototypeMethods.contains "isfile" = false :=
  ⟨fun st p => gdReadFile_eq st p, by decide, by decide⟩

/-- Claim C2: `path2array` equals splitting on `'/'` with exactly the first
element removed when it is `""` or `"."`, every other element kept in order
(internal empty segments included); `jsSplitSlash` really is the split, since
joining its slash-free segments with `'/'` restores the input. -/
theorem c2_path2array_split_spec :
    (∀ p : String,
      fmjs.path2array p =
        if (jsSplitSlash p).head? = some "" ∨ (jsSplitSlash p).head? = some "."
        then (jsSplitSlash p).tail else jsSplitSlash p) ∧
    (∀ p : String, joinSlash ((jsSplitSlash p).map String.data) = p.data) ∧
    (∀ (p : String), ∀ s ∈ jsSplitSlash p, '/' ∉ s.data) ∧
    fmjs.path2array "/a/b/c" = ["a", "b", "c"] ∧
    fmjs.path2array "a/b" = ["a", "b"] ∧
    fmjs.path2array "/a//b" = ["a", "", "b"] := by
  refine ⟨?_, ?_, ?_, by decide, by decide, by decide⟩
  · intro p
    unfold fmjs.path2array
    cases k : jsSplitSlash p with
    | nil => simp
    | cons e rest =>
      simp only [List.head?_cons, List.tail_cons, Option.some.injEq]
  · intro p
    unfold jsSplitSlash
    rw [map_mk_data]
    exact joinSlash_splitSeg p.data
  · intro p s hs
    unfold jsSplitSlash at hs
    obtain ⟨x, hx, rfl⟩ := List.mem_map.mp hs
    exact splitSeg_mem_no_slash p.data x hx

/-- Claim C9 counterexample: with an empty cache and the drive API not yet
loaded, `getUserInfo` does not log-and-return (nor call back) — it throws,
because `gapi.client.drive` is undefined and the method has no readiness
guard. -/
theorem c9_not_ready_counterexample :
    getUserInfo notReadyState ("name", "mail") = (UserInfoOutcome.crashed, notReadyState) ∧
    (getUserInfo notReadyState ("name", "mail")).1 ≠ UserInfoOutcome.noCallback ∧
    ∀ u n, (getUserInfo notReadyState ("name", "mail")).1 ≠ UserInfoOutcome.callback u n := by
  refine ⟨rfl, by decide, ?_⟩
  intro u n h
  exact UserInfoOutcome.noConfusion h

/-- Claim C9 amended: cached info is returned with no remote request; an
empty cache with the API loaded triggers exactly one remote lookup whose
{name, emailAddress} result is cached and passed to the callback; but an
empty cache with the API not loaded crashes with a TypeError (no log, no
callback) since the source has no readiness guard. -/
theorem c9_getUserInfo_amended (st : GDriveState) (about : String × String) :
    (∀ u, st.userInfo = some u →
      getUserInfo st about = (UserInfoOutcome.callback u 0, st)) ∧
    (st.userInfo = none → st.driveAPILoaded = true →
      getUserInfo st about =
        (UserInfoOutcome.callback about 1, { st with userInfo := some about })) ∧
    (st.userInfo = none → st.driveAPILoaded = false →
      getUserInfo st about = (UserInfoOutcome.crashed, st)) := by
  refine ⟨?_, ?_, ?_⟩
  · intro u hu
    unfold getUserInfo
    rw [hu]
  · intro hu hapi
    unfold getUserInfo
    rw [hu]
    simp [hapi]
  · intro hu hapi
    unfold getUserInfo
    rw [hu]
    simp [hapi]

theorem c9_witness :
    getUserInfo { readySessionState with userInfo := some ("a", "b") } ("n", "m") =
      (UserInfoOutcome.callback ("a", "b") 0, { readySessionState with userInfo := some ("a", "b") }) ∧
    getUserInfo readySessionState ("n", "m") =
      (UserInfoOutcome.callback ("n", "m") 1, { readySessionState with userInfo := some ("n", "m") }) ∧
    getUserInfo notReadyState ("n", "m") = (UserInfoOutcome.crashed, notReadyState) :=
  ⟨(c9_getUserInfo_amended { readySessionState with userInfo := some ("a", "b") } ("n", "m")).1
      ("a", "b") rfl,
   (c9_getUserInfo_amended readySessionState ("n", "m")).2.1 rfl rfl,
   (c9_getUserInfo_amended notReadyState ("n", "m")).2.2 rfl rfl⟩

/-- Claim C10: a root-level file path has an empty parent after the string
surgery, `createPath` then hands `null` to the continuation, and the
continuation dereferences `baseDirResp.id` — so the write crashes, issues no
upload request, and never invokes the caller's callback. -/
theorem c10_root_level_write_crashes (st : GDriveState) (p : String) (data : List Nat)
    (ok : Bool) (hapi : st.driveAPILoaded = true)
    (hlen : (fmjs.path2array p).length = 1) :
    gdWriteFile st p data ok = (WriteOutcome.crashNullBase, st) := by
  have hbase : fmjs.path2array (jsBasedir p) = [] := by
    rw [path2array_data] at hlen ⊢
    rw [List.length_map] at hlen
    rw [show (jsBasedir p).data = basedirL p.data from rfl,
      path2arrayL_basedir_of_len1 p.data hlen]
    rfl
  have hcp : createPath st (jsBasedir p) = (CbOutcome.callback none, st) := by
    unfold createPath
    rw [hbase]
    simp [hapi]
  unfold gdWriteFile
  simp only [hcp]

theorem c10_witness :
    readySessionState.driveAPILoaded = true ∧
    (fmjs.path2array "test.bin").length = 1 ∧
    gdWriteFile readySessionState "test.bin" [1, 2, 3] true =
      (WriteOutcome.crashNullBase, readySessionState) :=
  ⟨rfl, by decide,
    c10_root_level_write_crashes readySessionState "test.bin" [1, 2, 3] true rfl (by decide)⟩

/-- Claim C3: with the drive API loaded and a non-empty segment sequence,
`createPath` run twice returns the same terminal folder both times and the
second run leaves the store exactly as the first run left it (every level is
found by the folder-type listing and reused; nothing is inserted). -/
theorem c3_createPath_idempotent (st : GDriveState) (p : String)
    (hapi : st.driveAPILoaded = true) (hne : fmjs.path2array p ≠ []) :
    ∃ e st1, createPath st p = (CbOutcome.callback (some e), st1) ∧
      createPath st1 p = (CbOutcome.callback (some e), st1) := by
  obtain ⟨f, fs, hp⟩ := List.exists_cons_of_ne_nil hne
  refine ⟨(createFolder "root" f fs st.store).1,
    { st with store := (createFolder "root" f fs st.store).2 },
    createPath_cons st p f fs hapi hp, ?_⟩
  have h2 := createPath_cons { st with store := (createFolder "root" f fs st.store).2 }
    p f fs hapi hp
  rw [h2,
    show ({ st with store := (createFolder "root" f fs st.store).2 } : GDriveState).store =
      (createFolder "root" f fs st.store).2 from rfl,
    createFolder_idem]

theorem c3_witness :
    emptyDriveState.driveAPILoaded = true ∧ fmjs.path2array "/a/b" ≠ [] ∧
    ∃ e st1, createPath emptyDriveState "/a/b" = (CbOutcome.callback (some e), st1) ∧
      createPath st1 "/a/b" = (CbOutcome.callback (some e), st1) :=
  ⟨rfl, by decide, c3_createPath_idempotent emptyDriveState "/a/b" rfl (by decide)⟩

/-- Claim C4: for any path with at least one parent segment, `writeFile`
first runs `createPath` on the parent path (creating every missing ancestor),
then issues the upload; the resulting record carries the leaf name, is
parented at the terminal directory, and holds the written bytes; afterwards
the whole parent chain resolves without further creation.  When the external
transport fails the callback receives null. -/
theorem c4_writeFile_creates_missing_parents (st : GDriveState) (p : String) (data : List Nat)
    (hapi : st.driveAPILoaded = true) (hne : fmjs.path2array (jsBasedir p) ≠ []) :
    ∃ dir rec req st2,
      gdWriteFile st p data true = (WriteOutcome.callback (some rec) req, st2) ∧
      rec.title = jsLeafName p ∧
      rec.parents = [dir.id] ∧
      rec.content = data ∧
      rec.mimeType ≠ folderMime ∧
      createPath st2 (jsBasedir p) = (CbOutcome.callback (some dir), st2) ∧
      ∃ req2 stMid, gdWriteFile st p data false = (WriteOutcome.callback none req2, stMid) := by
  obtain ⟨f, fs, hp⟩ := List.exists_cons_of_ne_nil hne
  have hcp := createPath_cons st (jsBasedir p) f fs hapi hp
  refine ⟨(createFolder "root" f fs st.store).1,
    (insertEntry (createFolder "root" f fs st.store).2 (createFolder "root" f fs st.store).1.id
      (jsLeafName p) "application/octet-stream" data).1,
    uploadRequestFor (createFolder "root" f fs st.store).1.id p data,
    { st with store := (insertEntry (createFolder "root" f fs st.store).2
        (createFolder "root" f fs st.store).1.id (jsLeafName p)
        "application/octet-stream" data).2 },
    ?_, rfl, rfl, rfl,
    (by decide : ("application/octet-stream" : String) ≠ folderMime), ?_, ?_⟩
  · unfold gdWriteFile
    simp only [hcp]
    simp
  · have h2 := createPath_cons
      { st with store := (insertEntry (createFolder "root" f fs st.store).2
          (createFolder "root" f fs st.store).1.id (jsLeafName p)
          "application/octet-stream" data).2 }
      (jsBasedir p) f fs hapi hp
    rw [h2]
    have hstable := createFolder_stable fs "root" f st.store
      [(insertEntry (createFolder "root" f fs st.store).2
          (createFolder "root" f fs st.store).1.id (jsLeafName p)
          "application/octet-stream" data).1]
      (insertEntry (createFolder "root" f fs st.store).2
          (createFolder "root" f fs st.store).1.id (jsLeafName p)
          "application/octet-stream" data).2
      rfl
    rw [show ({ st with store := (insertEntry (createFolder "root" f fs st.store).2
          (createFolder "root" f fs st.store).1.id (jsLeafName p)
          "application/octet-stream" data).2 } : GDriveState).store =
        (insertEntry (createFolder "root" f fs st.store).2
          (createFolder "root" f fs st.store).1.id (jsLeafName p)
          "application/octet-stream" data).2 from rfl,
      hstable]
  · exact ⟨uploadRequestFor (createFolder "root" f fs st.store).1.id p data,
      { st with store := (createFolder "root" f fs st.store).2 },
      by unfold gdWriteFile; simp only [hcp]; simp⟩

theorem c4_witness :
    emptyDriveState.driveAPILoaded = true ∧ fmjs.path2array (jsBasedir "/a/b/c.bin") ≠ [] ∧
    ∃ dir rec req st2,
      gdWriteFile emptyDriveState "/a/b/c.bin" [1, 2] true =
        (WriteOutcome.callback (some rec) req, st2) ∧
      rec.title = jsLeafName "/a/b/c.bin" ∧
      rec.parents = [dir.id] ∧
      rec.content = [1, 2] ∧
      rec.mimeType ≠ folderMime ∧
      createPath st2 (jsBasedir "/a/b/c.bin") = (CbOutcome.callback (some dir), st2) ∧
      ∃ req2 stMid, gdWriteFile emptyDriveState "/a/b/c.bin" [1, 2] false =
        (WriteOutcome.callback none req2, stMid) :=
  ⟨rfl, by decide,
    c4_writeFile_creates_missing_parents emptyDriveState "/a/b/c.bin" [1, 2] rfl (by decide)⟩

/-- Claim C7: the multipart body issued by `writeFile` is exactly the
specification's concatenation, and the request's Content-Type header carries
the quoted boundary. -/
theorem c7_multipart_upload_wire_format (st : GDriveState) (p : String) (data : List Nat)
    (hapi : st.driveAPILoaded = true) (hne : fmjs.path2array (jsBasedir p) ≠ []) :
    ∃ dir rec req st2,
      gdWriteFile st p data true = (WriteOutcome.callback (some rec) req, st2) ∧
      (createPath st (jsBasedir p)).1 = CbOutcome.callback (some dir) ∧
      req.body = specMultipartBody boundaryConst
        (metadataJson (jsLeafName p) "application/octet-stream" dir.id)
        "application/octet-stream" (btoa (fmjs.ab2str data)) ∧
      req.contentTypeHeader = "multipart/mixed; boundary=\"" ++ boundaryConst ++ "\"" := by
  obtain ⟨f, fs, hp⟩ := List.exists_cons_of_ne_nil hne
  have hcp := createPath_cons st (jsBasedir p) f fs hapi hp
  refine ⟨(createFolder "root" f fs st.store).1,
    (insertEntry (createFolder "root" f fs st.store).2 (createFolder "root" f fs st.store).1.id
      (jsLeafName p) "application/octet-stream" data).1,
    uploadRequestFor (createFolder "root" f fs st.store).1.id p data,
    { st with store := (insertEntry (createFolder "root" f fs st.store).2
        (createFolder "root" f fs st.store).1.id (jsLeafName p)
        "application/octet-stream" data).2 },
    ?_, by rw [hcp], ?_, rfl⟩
  · unfold gdWriteFile
    simp only [hcp]
    simp
  · exact multipartRequestBody_eq_spec
      (metadataJson (jsLeafName p) "application/octet-stream" (createFolder "root" f fs st.store).1.id)
      "application/octet-stream" (btoa (fmjs.ab2str data))

theorem c7_witness :
    emptyDriveState.driveAPILoaded = true ∧ fmjs.path2array (jsBasedir "/docs/n.txt") ≠ [] ∧
    ∃ dir rec req st2,
      gdWriteFile emptyDriveState "/docs/n.txt" [77, 97, 110] true =
        (WriteOutcome.callback (some rec) req, st2) ∧
      (createPath emptyDriveState (jsBasedir "/docs/n.txt")).1 = CbOutcome.callback (some dir) ∧
      req.body = specMultipartBody boundaryConst
        (metadataJson (jsLeafName "/docs/n.txt") "application/octet-stream" dir.id)
        "application/octet-stream" (btoa (fmjs.ab2str [77, 97, 110])) ∧
      req.contentTypeHeader = "multipart/mixed; boundary=\"" ++ boundaryConst ++ "\"" :=
  ⟨rfl, by decide,
    c7_multipart_upload_wire_format emptyDriveState "/docs/n.txt" [77, 97, 110] rfl (by decide)⟩

/-- Claim C6 (refuted by the code): because `readFile` throws on its
`this.isfile` call, `readFileByID` copies the entry but never reaches the
delete or the data callback: the only request issued after the copy is
nothing — no delete happens — and the temporary duplicate remains in the
store as residue. -/
theorem c6_readFileByID_leaves_residue (st : GDriveState) (fileID : String)
    (hapi : st.driveAPILoaded = true) (src0 : DriveEntry)
    (hsrc : st.store.entries.find? (fun e => e.id == fileID) = some src0) :
    ∃ tmp st2 evs,
      gdReadFileByID st fileID = (ReadOutcome.methodMissing "isfile", st2, evs) ∧
      tmp.title = "tempGDriveFile.tmp" ∧
      tmp ∈ st2.store.entries ∧
      evs = [DriveEvent.copyReq fileID "tempGDriveFile.tmp"] ∧
      ∀ i, DriveEvent.deleteReq i ∉ evs := by
  refine ⟨(insertEntry st.store "root" "tempGDriveFile.tmp" src0.mimeType src0.content).1,
    { st with store :=
        (insertEntry st.store "root" "tempGDriveFile.tmp" src0.mimeType src0.content).2 },
    [DriveEvent.copyReq fileID "tempGDriveFile.tmp"], ?_, rfl, ?_, rfl, ?_⟩
  · unfold gdReadFileByID
    rw [hsrc]
    simp only [hapi, gdReadFile_eq]
    simp
  · show _ ∈ st.store.entries ++ [_]
    exact List.mem_append_right _ (List.mem_singleton.mpr rfl)
  · intro i h
    simp at h

theorem c6_witness :
    storedFileState.driveAPILoaded = true ∧
    storedFileState.store.entries.find? (fun e => e.id == "f1") =
      some ⟨"f1", ["root"], "doc.txt", "text/plain", [7, 8]⟩ ∧
    ∃ tmp st2 evs,
      gdReadFileByID storedFileState "f1" = (ReadOutcome.methodMissing "isfile", st2, evs) ∧
      tmp.title = "tempGDriveFile.tmp" ∧
      tmp ∈ st2.store.entries ∧
      evs = [DriveEvent.copyReq "f1" "tempGDriveFile.tmp"] ∧
      ∀ i, DriveEvent.deleteReq i ∉ evs :=
  ⟨rfl, by decide,
    c6_readFileByID_leaves_residue storedFileState "f1" rfl
      ⟨"f1", ["root"], "doc.txt", "text/plain", [7, 8]⟩ (by decide)⟩
